import Mathlib
/-!
A verification development for the port-registry bookkeeping of a serial-port
test library (`SerialLibrary`).  The library maintains an insertion-ordered
mapping from string locators to port handles, a nullable "current" locator,
and a typed default parameter set; all keyword operations are modelled here as
pure functions from a registry state to a result paired with the (possibly
partially mutated) successor state, where `Except.error` models an
adapter-level test failure or a raised exception.
-/
set_option autoImplicit false

namespace SerialSpec

/-- Dynamically typed parameter values, covering the Python value types that
occur in the library's default parameter set: `int`, `float` (modelled as a
rational, since only construction and conversion — never float arithmetic —
occur in the source), `str`, `bool` and `None`. -/
inductive PyVal where
  | vint (n : Int)
  | vfloat (q : Rat)
  | vstr (s : String)
  | vbool (b : Bool)
  | vnone
  deriving DecidableEq, Repr

/-- The runtime type of a `PyVal`, as used by `type(v)` in the source. -/
inductive PyType where
  | tint
  | tfloat
  | tstr
  | tbool
  | tnone
  deriving DecidableEq, Repr

def ptype : PyVal → PyType
  | .vint _ => .tint
  | .vfloat _ => .tfloat
  | .vstr _ => .tstr
  | .vbool _ => .tbool
  | .vnone => .tnone

/-- Python truthiness `bool(v)` for the modelled value types. -/
def pyTruthy : PyVal → Bool
  | .vint n => n != 0
  | .vfloat q => q != 0
  | .vstr s => s != ""
  | .vbool b => b
  | .vnone => false

/-- Python `str(v)` for the modelled value types.  The exact rendering of a
float is a modelling choice (no claim depends on it); the other renderings
follow Python. -/
def pyStr : PyVal → String
  | .vint n => toString n
  | .vfloat q => toString q
  | .vstr s => s
  | .vbool b => if b then "True" else "False"
  | .vnone => "None"

/-- Core of Python `int(s)` on a stripped string: an optional minus sign
followed by decimal digits (sign/underscore/whitespace variants beyond
`String.toInt?` are not exercised by any claim). -/
def pyParseInt (s : String) : Option Int :=
  s.trim.toInt?

/-- Core of Python `float(s)`: optional sign, integer digits, optional
fractional digits.  Exponent and special forms are not exercised by any
claim. -/
def pyParseFloat (s : String) : Option Rat :=
  let t := s.trim.data
  let (sign, t) : Rat × List Char :=
    match t with
    | '-' :: rest => (-1, rest)
    | '+' :: rest => (1, rest)
    | _ => (1, t)
  let intPart := t.takeWhile Char.isDigit
  let rest := t.dropWhile Char.isDigit
  let (fracPart, tail) : List Char × List Char :=
    match rest with
    | '.' :: r => (r.takeWhile Char.isDigit, r.dropWhile Char.isDigit)
    | _ => ([], rest)
  if tail ≠ [] ∨ (intPart = [] ∧ fracPart = []) ∨ (rest ≠ [] ∧ rest.head? ≠ some '.') then
    none
  else
    let iv : Nat := intPart.foldl (fun a c => 10 * a + (c.toNat - 48)) 0
    let fv : Nat := fracPart.foldl (fun a c => 10 * a + (c.toNat - 48)) 0
    some (sign * ((iv : Rat) + (fv : Rat) / ((10 : Rat) ^ fracPart.length)))

/-- Python `int(q)` for a float: truncation toward zero. -/
def pyTruncFloat (q : Rat) : Int :=
  q.num.tdiv (q.den : Int)

/-- Model of `coerce t v` models the Python call `t(v)` where `t` is the runtime type
of a stored default value (`type(default)(value)` in the source).  `none`
models a raised `TypeError`/`ValueError`. -/
def coerce : PyType → PyVal → Option PyVal
  | .tint, .vint n => some (.vint n)
  | .tint, .vfloat q => some (.vint (pyTruncFloat q))
  | .tint, .vstr s => (pyParseInt s).map .vint
  | .tint, .vbool b => some (.vint (if b then 1 else 0))
  | .tint, .vnone => none
  | .tfloat, .vint n => some (.vfloat (n : Rat))
  | .tfloat, .vfloat q => some (.vfloat q)
  | .tfloat, .vstr s => (pyParseFloat s).map .vfloat
  | .tfloat, .vbool b => some (.vfloat (if b then 1 else 0))
  | .tfloat, .vnone => none
  | .tstr, v => some (.vstr (pyStr v))
  | .tbool, v => some (.vbool (pyTruthy v))
  | .tnone, _ => none

/-! Insertion-ordered dictionaries (`dict` / `OrderedDict` in the source) are
modelled as association lists: a fresh key is appended at the end, so list
order is insertion order and the last key is the most recently inserted. -/
/-- Model of `d.get(k)` / `d[k]`: value of the first entry with key `k`. -/
def aget {α : Type} (k : String) : List (String × α) → Option α
  | [] => none
  | (k', v) :: rest => if k = k' then some v else aget k rest

/-- Model of `d[k] = v`: update in place if present (keeping its position, as Python
dicts do), otherwise append at the end. -/
def aset {α : Type} (k : String) (v : α) : List (String × α) → List (String × α)
  | [] => [(k, v)]
  | (k', v') :: rest => if k = k' then (k, v) :: rest else (k', v') :: aset k v rest

/-- Model of `d.pop(k)`: remove the first entry with key `k`. -/
def aerase {α : Type} (k : String) : List (String × α) → List (String × α)
  | [] => []
  | (k', v') :: rest => if k = k' then rest else (k', v') :: aerase k rest

/-- Model of `d.keys()`, in insertion order. -/
def akeys {α : Type} (l : List (String × α)) : List String :=
  l.map Prod.fst

/-! ## Transport settings -/
/-- The transport's built-in default settings (`serial.SerialBase` with no
arguments, external collaborator): `baudrate=9600`, `bytesize=EIGHTBITS`,
`parity=PARITY_NONE ('N')`, `stopbits=STOPBITS_ONE`, `xonxoff=False`,
`dsrdtr=False`, `rtscts=False` and all three timeouts `None`, enumerated in
the order of `SerialBase.get_settings`. -/
def SerialBase_default_settings : List (String × PyVal) :=
  [("baudrate", .vint 9600), ("bytesize", .vint 8), ("parity", .vstr "N"),
   ("stopbits", .vint 1), ("xonxoff", .vbool false), ("dsrdtr", .vbool false),
   ("rtscts", .vbool false), ("timeout", .vnone), ("write_timeout", .vnone),
   ("inter_byte_timeout", .vnone)]

/-- Model of `DEFAULT_SETTINGS = SerialBase(timeout=1.0, write_timeout=1.0,
inter_byte_timeout=0.0).get_settings()`: the transport's built-in defaults
with `timeout` and `write_timeout` set to `1.0` and `inter_byte_timeout` set
to `0.0`. -/
def DEFAULT_SETTINGS : List (String × PyVal) :=
  [("baudrate", .vint 9600), ("bytesize", .vint 8), ("parity", .vstr "N"),
   ("stopbits", .vint 1), ("xonxoff", .vbool false), ("dsrdtr", .vbool false),
   ("rtscts", .vbool false), ("timeout", .vfloat 1), ("write_timeout", .vfloat 1),
   ("inter_byte_timeout", .vfloat 0)]

/-! ## Registry state -/
/-- A port handle: an opaque transport resource owned by a registry entry.
`params` holds its configurable parameters (the keyword arguments it was
constructed with, updated by `setattr`); `buffer` models the pending incoming
bytes of a loopback (`loop://`) transport, which echoes writes into its own
read buffer. -/
structure PortHandle where
  is_open : Bool
  params : List (String × PyVal)
  buffer : List Nat
  deriving DecidableEq, Repr

/-- The registry state of one `SerialLibrary` instance: the default encoding,
the insertion-ordered locator-to-handle mapping `_ports`, the typed default
parameter set `_defaults` and the nullable current locator. -/
structure SerialLibrary where
  encoding : String
  ports : List (String × PortHandle)
  defaults : List (String × PyVal)
  current_port_locator : Option String
  deriving DecidableEq, Repr

/-- Returns true on `Except.error`, i.e. the operation raised an adapter-level test
failure or a Python exception. -/
def isErr {ε α : Type} : Except ε α → Bool
  | .error _ => true
  | .ok _ => false

namespace SerialLibrary

/-- Model of `serial_kw = dict((k, type(v)(kwargs.get(k, v))) for k, v in
self._defaults.items())`: each default coerced to its own type, overridden by
any caller-supplied value.  `none` models a conversion raising before any
state is mutated. -/
def build_serial_kw (kwargs : List (String × PyVal)) :
    List (String × PyVal) → Option (List (String × PyVal))
  | [] => some []
  | (k, v) :: rest =>
    match coerce (ptype v) ((aget k kwargs).getD v), build_serial_kw kwargs rest with
    | some v', some rest' => some ((k, v') :: rest')
    | _, _ => none

/-- Model of `add_port`: fails on an empty, reserved (`'_'`) or duplicate locator;
otherwise builds the parameter set from the defaults and `kwargs`, constructs
the handle (transport construction by `serial_for_url` / `Serial` is an
external collaborator and is modelled as succeeding with an open port, closed
immediately when `open` is false), inserts it, and makes it current when the
current locator was unset or `make_current` holds. -/
def add_port (s : SerialLibrary) (port_locator : String) (opn make_current : Bool)
    (kwargs : List (String × PyVal)) : Except String PortHandle × SerialLibrary :=
  if port_locator = "" ∨ port_locator = "_" then
    (.error "Invalid port locator.", s)
  else if (aget port_locator s.ports).isSome then
    (.error "Port already exists.", s)
  else
    match build_serial_kw kwargs s.defaults with
    | none => (.error "TypeError", s)
    | some serial_kw =>
      let port : PortHandle := { is_open := opn, params := serial_kw, buffer := [] }
      let current' :=
        if s.current_port_locator = none ∨ make_current then some port_locator
        else s.current_port_locator
      (.ok port, { s with ports := aset port_locator port s.ports,
                          current_port_locator := current' })

/-- Model of `delete_port`: the locator defaults to the current one; fails if the
resulting locator is not a key of `_ports`.  The entry is removed (its handle
closed), and if it was the current one the current locator becomes the last
remaining key (`self._ports.keys()[-1]`), i.e. the most recently inserted
remaining locator, or `None` when none remain. -/
def delete_port (s : SerialLibrary) (port_locator : Option String) :
    Except String Unit × SerialLibrary :=
  match port_locator.orElse (fun _ => s.current_port_locator) with
  | none => (.error "Invalid port locator.", s)
  | some loc =>
    match aget loc s.ports with
    | none => (.error "Invalid port locator.", s)
    | some _ =>
      let ports' := aerase loc s.ports
      let current' :=
        if s.current_port_locator = some loc then (akeys ports').getLast?
        else s.current_port_locator
      (.ok (), { s with ports := ports', current_port_locator := current' })

/-- Model of `delete_all_ports`: clears the current locator and pops (closing) every
entry. -/
def delete_all_ports (s : SerialLibrary) : SerialLibrary :=
  { s with ports := [], current_port_locator := none }

/-- Model of `switch_port`: fails if the locator is not a key of `_ports`; otherwise
makes it current. -/
def switch_port (s : SerialLibrary) (port_locator : String) :
    Except String Unit × SerialLibrary :=
  if (aget port_locator s.ports).isSome then
    (.ok (), { s with current_port_locator := some port_locator })
  else
    (.error "No such port.", s)

/-- The update loop of `set_default_parameters`: keys absent from the default
set are ignored silently; present keys are updated with the value coerced to
the type already stored.  A failing coercion raises, keeping the updates made
so far (the exception propagates with the partially mutated dictionary). -/
def update_defaults : List (String × PyVal) → List (String × PyVal) →
    Except String Unit × List (String × PyVal)
  | defaults, [] => (.ok (), defaults)
  | defaults, (k, v) :: rest =>
    match aget k defaults with
    | none => update_defaults defaults rest
    | some dv =>
      match coerce (ptype dv) v with
      | none => (.error "TypeError", defaults)
      | some v' => update_defaults (aset k v' defaults) rest

/-- Model of `set_default_parameters`: snapshots the previous default set, applies the
update loop, and returns the snapshot on success. -/
def set_default_parameters (s : SerialLibrary) (params : List (String × PyVal)) :
    Except String (List (String × PyVal)) × SerialLibrary :=
  let prev := s.defaults
  match update_defaults s.defaults params with
  | (.ok _, d') => (.ok prev, { s with defaults := d' })
  | (.error e, d') => (.error e, { s with defaults := d' })

/-- Model of `reset_default_parameters`: restores `DEFAULT_SETTINGS`. -/
def reset_default_parameters (s : SerialLibrary) : SerialLibrary :=
  { s with defaults := DEFAULT_SETTINGS }

/-- Model of `SerialLibrary.__init__`: starts from an empty registry with
`dict(DEFAULT_SETTINGS)` as defaults, applies `kwargs` via
`set_default_parameters`, sets the current locator to `None`, and finally
auto-adds (and thereby makes current) the optional initial `port_locator`. -/
def mkSerialLibrary (port_locator : Option String) (encoding : String)
    (kwargs : List (String × PyVal)) : Except String Unit × SerialLibrary :=
  let s0 : SerialLibrary :=
    { encoding := encoding, ports := [], defaults := DEFAULT_SETTINGS,
      current_port_locator := none }
  match set_default_parameters s0 kwargs with
  | (.error e, s1) => (.error e, s1)
  | (.ok _, s1) =>
    match port_locator with
    | none => (.ok (), s1)
    | some pl =>
      match add_port s1 pl true false [] with
      | (.error e, s2) => (.error e, s2)
      | (.ok _, s2) => (.ok (), s2)

/-- Model of `get_current_port_locator`. -/
def get_current_port_locator (s : SerialLibrary) : Option String :=
  s.current_port_locator

/-- Model of `current_port_should_be`: fails iff the given locator is neither the
current locator nor the reserved token `'_'`
(`port_locator not in [self._current_port_locator, '_']`). -/
def current_port_should_be (s : SerialLibrary) (port_locator : String) :
    Except String Unit :=
  if port_locator = "_" ∨ s.current_port_locator = some port_locator then .ok ()
  else .error "Port does not match."

/-- The locator a keyword resolves against `_ports`: `None` or `'_'` stand
for the current locator. -/
def resolve_key (s : SerialLibrary) (port_locator : Option String) : Option String :=
  if port_locator = none ∨ port_locator = some "_" then s.current_port_locator
  else port_locator

/-- Model of `_port`: looks up the resolved locator in `_ports`; on a miss it fails
when `fail` holds and silently returns `None` otherwise. -/
def get_port (s : SerialLibrary) (port_locator : Option String) (fail : Bool) :
    Except String (Option PortHandle) :=
  match (resolve_key s port_locator).bind (fun l => aget l s.ports) with
  | none => if fail then .error "No such port." else .ok none
  | some p => .ok (some p)

/-- Model of `get_port_parameter`: fails on an unrecognized parameter name, resolves
the port (failing on a miss), and returns `getattr(port, param_name)`
(a missing attribute models a raised `AttributeError`). -/
def get_port_parameter (s : SerialLibrary) (param_name : String)
    (port_locator : Option String) : Except String PyVal :=
  if (aget param_name s.defaults).isSome then
    match get_port s port_locator true with
    | .error e => .error e
    | .ok none => .error "AttributeError"
    | .ok (some port) =>
      match aget param_name port.params with
      | none => .error "AttributeError"
      | some v => .ok v
  else .error "Wrong parameter name."

/-- Model of `set_port_parameter`: fails on an unrecognized parameter name, resolves
the port (failing on a miss), reads the previous value, coerces the new value
to the type stored in the default set, stores it on the port and returns the
previous value. -/
def set_port_parameter (s : SerialLibrary) (param_name : String) (value : PyVal)
    (port_locator : Option String) : Except String PyVal × SerialLibrary :=
  match aget param_name s.defaults with
  | none => (.error "Wrong parameter name.", s)
  | some dv =>
    match resolve_key s port_locator with
    | none => (.error "No such port.", s)
    | some key =>
      match aget key s.ports with
      | none => (.error "No such port.", s)
      | some port =>
        match aget param_name port.params with
        | none => (.error "AttributeError", s)
        | some prev =>
          match coerce (ptype dv) value with
          | none => (.error "TypeError", s)
          | some v' =>
            let port' : PortHandle := { port with params := aset param_name v' port.params }
            (.ok prev, { s with ports := aset key port' s.ports })

end SerialLibrary

/-! ## Encodings

Text is modelled as `List Char` (a sequence of code points) and raw bytes as
`List Nat` (each `< 256`).  The instance encoding is applied by `_encode`
(mode `strict`) and `_decode` (mode `replace`); the supported codecs here are
the library's registered `hexlify` codec and the standard `ascii` codec,
which are the ones the claims exercise — an unsupported codec name models a
raised `LookupError`. -/
/-- Model of `'{:02X} '.format(b)`: the upper-case hex digit of a nibble. -/
def hexDigitUpper (n : Nat) : Char :=
  if n < 10 then Char.ofNat (48 + n) else Char.ofNat (55 + n)

/-- One byte rendered by `hex_decode`: two upper-case hex digits and a
trailing space. -/
def byte_hex_chars (b : Nat) : List Char :=
  [hexDigitUpper (b / 16), hexDigitUpper (b % 16), ' ']

/-- Model of `serial.tools.hexlify_codec.hex_decode`: every byte becomes `'XX '`. -/
def hex_decode_chars (bs : List Nat) : List Char :=
  bs.foldr (fun b acc => byte_hex_chars b ++ acc) []

/-- Python `str.rstrip()`: drop trailing whitespace. -/
def rstrip (cs : List Char) : List Char :=
  (cs.reverse.dropWhile Char.isWhitespace).reverse

/-- Model of `hexlify_decode_plus`: `hex_decode` with the trailing whitespace
stripped. -/
def hexlify_decode_plus (bs : List Nat) : List Char :=
  rstrip (hex_decode_chars bs)

/-- One step of Python `str.split()` (split on whitespace runs, no empty
tokens), consumed by a right fold: the accumulator is the token currently
being built together with the finished tokens. -/
def split_ws_step (c : Char) (acc : List Char × List (List Char)) :
    List Char × List (List Char) :=
  if c.isWhitespace then ([], if acc.1.isEmpty then acc.2 else acc.1 :: acc.2)
  else (c :: acc.1, acc.2)

/-- Close the fold of `split_ws`: flush a nonempty pending token. -/
def finish_split (r : List Char × List (List Char)) : List (List Char) :=
  if r.1.isEmpty then r.2 else r.1 :: r.2

/-- Python `data.split()`. -/
def split_ws (cs : List Char) : List (List Char) :=
  finish_split (cs.foldr split_ws_step ([], []))

/-- The value of a hexadecimal digit, upper or lower case. -/
def hex_digit_val (c : Char) : Option Nat :=
  if 48 ≤ c.toNat ∧ c.toNat ≤ 57 then some (c.toNat - 48)
  else if 97 ≤ c.toNat ∧ c.toNat ≤ 102 then some (c.toNat - 87)
  else if 65 ≤ c.toNat ∧ c.toNat ≤ 70 then some (c.toNat - 55)
  else none

def int_base16_aux (acc : Nat) : List Char → Option Nat
  | [] => some acc
  | c :: rest =>
    match hex_digit_val c with
    | none => none
    | some v => int_base16_aux (16 * acc + v) rest

/-- Core of Python `int(h, 16)` on a token produced by `split()`: a nonempty
run of hex digits (sign and `0x` prefix forms are not exercised by any
claim); `none` models a raised `ValueError`. -/
def int_base16 (cs : List Char) : Option Nat :=
  if cs.isEmpty then none else int_base16_aux 0 cs

def map_int_base16 : List (List Char) → Option (List Nat)
  | [] => some []
  | t :: rest =>
    match int_base16 t, map_int_base16 rest with
    | some v, some vs => some (v :: vs)
    | _, _ => none

/-- Model of `serial.to_bytes`: a list of ints becomes bytes; a value out of byte
range models a raised `ValueError`. -/
def to_bytes (vals : List Nat) : Option (List Nat) :=
  if vals.all (· < 256) then some vals else none

/-- Model of `serial.tools.hexlify_codec.hex_encode`:
`serial.to_bytes([int(h, 16) for h in data.split()])`. -/
def hex_encode_chars (cs : List Char) : Option (List Nat) :=
  match map_int_base16 (split_ws cs) with
  | none => none
  | some vals => to_bytes vals

/-- Model of `text.encode('ascii', 'strict')`: each code point below 128 becomes one
byte; any other code point raises (`none`). -/
def ascii_encode : List Char → Option (List Nat)
  | [] => some []
  | c :: rest =>
    if c.toNat < 128 then
      match ascii_encode rest with
      | none => none
      | some bs => some (c.toNat :: bs)
    else none

/-- Model of `data.decode('ascii', 'replace')`: bytes below 128 become their code
point, any other byte becomes U+FFFD. -/
def ascii_decode_replace (bs : List Nat) : List Char :=
  bs.map (fun b => if b < 128 then Char.ofNat b else Char.ofNat 0xFFFD)

/-- Model of `text.encode(encoding, 'strict')` for the supported codecs; `none` models
a raised `LookupError`/`UnicodeEncodeError`. -/
def encode_bytes (encoding : String) (text : List Char) : Option (List Nat) :=
  if encoding = "hexlify" then hex_encode_chars text
  else if encoding = "ascii" then ascii_encode text
  else none

/-- Model of `data.decode(encoding, 'replace')` for the supported codecs: the
`hexlify` decoder is total, and `ascii` with mode `replace` substitutes
U+FFFD for non-ASCII bytes; `none` models a raised `LookupError`. -/
def decode_bytes (encoding : String) (bs : List Nat) : Option (List Char) :=
  if encoding = "hexlify" then some (hexlify_decode_plus bs)
  else if encoding = "ascii" then some (ascii_decode_replace bs)
  else none

namespace SerialLibrary

/-- Model of `_encode`: the instance encoding applies when none is given. -/
def encode_data (s : SerialLibrary) (text : List Char) (encoding : Option String) :
    Option (List Nat) :=
  encode_bytes (encoding.getD s.encoding) text

/-- Model of `_decode`: the instance encoding applies when none is given. -/
def decode_data (s : SerialLibrary) (bs : List Nat) (encoding : Option String) :
    Option (List Char) :=
  decode_bytes (encoding.getD s.encoding) bs

/-- Model of `write_data` for unicode data: encodes the text (mode `strict`), then
resolves the port and writes the bytes; a loopback transport appends them to
its own read buffer, and writing to a closed port raises. -/
def write_data (s : SerialLibrary) (data : List Char) (encoding : Option String)
    (port_locator : Option String) : Except String Unit × SerialLibrary :=
  match encode_data s data encoding with
  | none => (.error "UnicodeEncodeError", s)
  | some bs =>
    match resolve_key s port_locator with
    | none => (.error "No such port.", s)
    | some key =>
      match aget key s.ports with
      | none => (.error "No such port.", s)
      | some port =>
        if port.is_open then
          let port' : PortHandle := { port with buffer := port.buffer ++ bs }
          (.ok (), { s with ports := aset key port' s.ports })
        else (.error "PortNotOpenError", s)

/-- Model of `read_all_data`: resolves the port, drains its incoming buffer
(`read_all`), and decodes the bytes (mode `replace`); reading from a closed
port raises. -/
def read_all_data (s : SerialLibrary) (encoding : Option String)
    (port_locator : Option String) : Except String (List Char) × SerialLibrary :=
  match resolve_key s port_locator with
  | none => (.error "No such port.", s)
  | some key =>
    match aget key s.ports with
    | none => (.error "No such port.", s)
    | some port =>
      if port.is_open then
        let port' : PortHandle := { port with buffer := [] }
        let s' : SerialLibrary := { s with ports := aset key port' s.ports }
        match decode_bytes (encoding.getD s.encoding) port.buffer with
        | none => (.error "LookupError", s')
        | some text => (.ok text, s')
      else (.error "PortNotOpenError", s)

end SerialLibrary

/-- The end-to-end scenario `Add Port loop://` → `Write Data AB
encoding=ascii` → `Read All Data encoding=ascii` on a freshly imported
library instance. -/
def loop_scenario : Except String (List Char) :=
  let s0 := (SerialLibrary.mkSerialLibrary none "hexlify" []).2
  match SerialLibrary.add_port s0 "loop://" true false [] with
  | (.error e, _) => .error e
  | (.ok _, s1) =>
    match SerialLibrary.write_data s1 ['A', 'B'] (some "ascii") none with
    | (.error e, _) => .error e
    | (.ok _, s2) => (SerialLibrary.read_all_data s2 (some "ascii") none).1

/-! ## Registry invariants -/
/-- The registry invariant: the current locator, when non-null, is a key
present in `_ports`. -/
def invariant_holds (s : SerialLibrary) : Bool :=
  match s.current_port_locator with
  | none => true
  | some loc => (aget loc s.ports).isSome

/-- The strengthened reachable-state invariant: additionally, a non-empty
registry always has a current locator (the first `add_port` sets it and
`delete_port` only clears it when the registry empties). -/
def good_state (s : SerialLibrary) : Bool :=
  invariant_holds s && (s.ports.isEmpty || s.current_port_locator.isSome)

/-! ## Witness inputs: a concrete handle and registry states. -/
def port_w : PortHandle :=
  { is_open := true, params := DEFAULT_SETTINGS, buffer := [] }

/-- A two-port registry whose current locator is the first port. -/
def sample_state : SerialLibrary :=
  { encoding := "hexlify", ports := [("p1", port_w), ("p2", port_w)],
    defaults := DEFAULT_SETTINGS, current_port_locator := some "p1" }

/-- A freshly imported library instance with no initial port. -/
def empty_state : SerialLibrary :=
  { encoding := "hexlify", ports := [], defaults := DEFAULT_SETTINGS,
    current_port_locator := none }

/-- The successor state of a successful `set_port_parameter`: the addressed
port's parameter map gains the coerced value. -/
def set_param_state (s : SerialLibrary) (loc name : String) (v' : PyVal)
    (port : PortHandle) : SerialLibrary :=
  let port2 : PortHandle := { port with params := aset name v' port.params }
  { s with ports := aset loc port2 s.ports }

/-! ## Round-trip facts for the supported codecs -/
/-- The hex-pair tokens of a canonically rendered byte string. -/
def hex_toks (bs : List Nat) : List (List Char) :=
  bs.map (fun b => [hexDigitUpper (b / 16), hexDigitUpper (b % 16)])

end SerialSpec

/-! ## Theorems -/

namespace SerialSpec

theorem coerce_ptype {t : PyType} {v w : PyVal} (h : coerce t v = some w) :
    ptype w = t := by
  cases t <;> cases v <;> simp [coerce, ptype] at h ⊢ <;>
    (obtain ⟨x, -, rfl⟩ := h; rfl)

/-- Coercing a value to its own type is the identity for non-`None` values
(`int(n) == n`, `float(q) == q`, `str(s) == s`, `bool(b) == b`). -/
theorem coerce_self (v : PyVal) (h : v ≠ .vnone) : coerce (ptype v) v = some v := by
  cases v <;> simp_all [coerce, ptype, pyStr, pyTruthy]

theorem aget_aset_self {α : Type} (k : String) (v : α) (l : List (String × α)) :
    aget k (aset k v l) = some v := by
  induction l with
  | nil => simp [aget, aset]
  | cons hd tl ih =>
    obtain ⟨k', v'⟩ := hd
    by_cases h : k = k' <;> simp [aget, aset, h, ih]

theorem aget_aset_ne {α : Type} {k k' : String} (v : α) (l : List (String × α))
    (h : k ≠ k') : aget k (aset k' v l) = aget k l := by
  induction l with
  | nil => simp [aget, aset, h]
  | cons hd tl ih =>
    obtain ⟨k0, v0⟩ := hd
    by_cases h0 : k' = k0
    · subst h0
      simp [aget, aset, h]
    · by_cases h1 : k = k0 <;> simp [aget, aset, h0, h1, ih]

theorem aget_aerase_ne {α : Type} {k k' : String} (l : List (String × α))
    (h : k ≠ k') : aget k (aerase k' l) = aget k l := by
  induction l with
  | nil => simp [aerase]
  | cons hd tl ih =>
    obtain ⟨k0, v0⟩ := hd
    by_cases h0 : k' = k0
    · subst h0
      simp [aget, aerase, h]
    · by_cases h1 : k = k0 <;> simp [aget, aerase, h0, h1, ih]

theorem aget_isSome_of_mem_akeys {α : Type} {k : String} {l : List (String × α)}
    (h : k ∈ akeys l) : (aget k l).isSome = true := by
  induction l with
  | nil => simp [akeys] at h
  | cons hd tl ih =>
    obtain ⟨k0, v0⟩ := hd
    by_cases h0 : k = k0
    · simp [aget, h0]
    · have h' : k ∈ akeys tl := by
        simpa [akeys, h0] using h
      simp [aget, h0, ih h']

theorem invariant_holds_iff (s : SerialLibrary) :
    invariant_holds s = true ↔
      ∀ c, s.current_port_locator = some c → (aget c s.ports).isSome = true := by
  unfold invariant_holds
  cases s.current_port_locator <;> simp

theorem good_state_iff (s : SerialLibrary) :
    good_state s = true ↔
      ((∀ c, s.current_port_locator = some c → (aget c s.ports).isSome = true) ∧
       (s.ports ≠ [] → s.current_port_locator.isSome = true)) := by
  unfold good_state
  rw [Bool.and_eq_true, invariant_holds_iff]
  constructor
  · rintro ⟨h1, h2⟩
    refine ⟨h1, fun hne => ?_⟩
    rcases Bool.or_eq_true _ _ |>.mp h2 with h | h
    · exact absurd (List.isEmpty_iff.mp h) hne
    · exact h
  · rintro ⟨h1, h2⟩
    refine ⟨h1, ?_⟩
    by_cases hnil : s.ports = []
    · simp [hnil]
    · simp [h2 hnil]

theorem aset_ne_nil {α : Type} (k : String) (v : α) (l : List (String × α)) :
    aset k v l ≠ [] := by
  cases l with
  | nil => simp [aset]
  | cons hd tl =>
    obtain ⟨k', v'⟩ := hd
    by_cases h : k = k' <;> simp [aset, h]

namespace SerialLibrary

theorem good_state_add_port (s : SerialLibrary) (loc : String) (opn mc : Bool)
    (kwargs : List (String × PyVal)) (h : good_state s = true) :
    good_state (add_port s loc opn mc kwargs).2 = true := by
  rw [good_state_iff] at h
  obtain ⟨h1, h2⟩ := h
  unfold add_port
  by_cases hg1 : loc = "" ∨ loc = "_"
  · rw [if_pos hg1]
    rw [good_state_iff]
    exact ⟨h1, h2⟩
  rw [if_neg hg1]
  by_cases hg2 : (aget loc s.ports).isSome = true
  · rw [if_pos hg2]
    rw [good_state_iff]
    exact ⟨h1, h2⟩
  rw [if_neg hg2]
  cases hkw : build_serial_kw kwargs s.defaults with
  | none =>
    rw [good_state_iff]
    exact ⟨h1, h2⟩
  | some serial_kw =>
    rw [good_state_iff]
    constructor
    · intro c hc
      simp only at hc ⊢
      by_cases hcur : s.current_port_locator = none ∨ mc = true
      · rw [if_pos hcur] at hc
        cases hc
        simp [aget_aset_self]
      · rw [if_neg hcur] at hc
        by_cases hcl : c = loc
        · subst hcl
          simp [aget_aset_self]
        · rw [aget_aset_ne _ _ hcl]
          exact h1 c hc
    · intro hne
      simp only at hne ⊢
      by_cases hcur : s.current_port_locator = none ∨ mc = true
      · simp [if_pos hcur]
      · rw [if_neg hcur]
        push_neg at hcur
        cases hcm : s.current_port_locator with
        | none => exact absurd hcm hcur.1
        | some c => simp

theorem good_state_delete_port (s : SerialLibrary) (pl : Option String)
    (h : good_state s = true) : good_state (delete_port s pl).2 = true := by
  rw [good_state_iff] at h
  obtain ⟨h1, h2⟩ := h
  unfold delete_port
  cases hres : pl.orElse (fun _ => s.current_port_locator) with
  | none =>
    dsimp only
    rw [good_state_iff]
    exact ⟨h1, h2⟩
  | some loc =>
    dsimp only
    cases hget : aget loc s.ports with
    | none =>
      dsimp only
      rw [good_state_iff]
      exact ⟨h1, h2⟩
    | some p =>
      dsimp only
      rw [good_state_iff]
      have hne : s.ports ≠ [] := by
        intro hnil
        rw [hnil] at hget
        simp [aget] at hget
      constructor
      · intro c hc
        simp only at hc ⊢
        by_cases hcur : s.current_port_locator = some loc
        · rw [if_pos hcur] at hc
          exact aget_isSome_of_mem_akeys (List.mem_of_mem_getLast? (by simpa using hc))
        · rw [if_neg hcur] at hc
          have hcl : c ≠ loc := by
            rintro rfl
            exact hcur hc
          rw [aget_aerase_ne _ hcl]
          exact h1 c hc
      · intro hne'
        simp only at hne' ⊢
        by_cases hcur : s.current_port_locator = some loc
        · rw [if_pos hcur]
          cases hl : (akeys (aerase loc s.ports)).getLast? with
          | none =>
            exfalso
            apply hne'
            have : akeys (aerase loc s.ports) = [] := by
              simpa using List.getLast?_eq_none_iff.mp (by simpa using hl)
            simpa [akeys] using this
          | some c => simp
        · rw [if_neg hcur]
          have := h2 hne
          cases hcm : s.current_port_locator with
          | none =>
            rw [hcm] at this
            simp at this
          | some c => simp

theorem good_state_switch_port (s : SerialLibrary) (loc : String)
    (h : good_state s = true) : good_state (switch_port s loc).2 = true := by
  rw [good_state_iff] at h
  obtain ⟨h1, h2⟩ := h
  unfold switch_port
  by_cases hg : (aget loc s.ports).isSome = true
  · rw [if_pos hg, good_state_iff]
    constructor
    · intro c hc
      simp only at hc ⊢
      cases hc
      exact hg
    · intro _
      simp
  · rw [if_neg hg, good_state_iff]
    exact ⟨h1, h2⟩

theorem good_state_delete_all_ports (s : SerialLibrary) :
    good_state (delete_all_ports s) = true := by
  rw [good_state_iff]
  constructor
  · intro c hc
    simp [delete_all_ports] at hc
  · intro hne
    simp [delete_all_ports] at hne

theorem good_state_defaults_only (s : SerialLibrary) (d : List (String × PyVal))
    (h : good_state s = true) : good_state { s with defaults := d } = true := by
  rw [good_state_iff] at h ⊢
  exact h

theorem good_state_set_default_parameters (s : SerialLibrary)
    (params : List (String × PyVal)) (h : good_state s = true) :
    good_state (set_default_parameters s params).2 = true := by
  unfold set_default_parameters
  split <;> exact good_state_defaults_only s _ h

theorem good_state_reset_default_parameters (s : SerialLibrary)
    (h : good_state s = true) : good_state (reset_default_parameters s) = true :=
  good_state_defaults_only s _ h

theorem good_state_mkSerialLibrary (pl : Option String) (enc : String)
    (kwargs : List (String × PyVal)) :
    good_state (mkSerialLibrary pl enc kwargs).2 = true := by
  unfold mkSerialLibrary
  set s0 : SerialLibrary := { encoding := enc, ports := [], defaults := DEFAULT_SETTINGS, current_port_locator := none } with hs0
  have h0 : good_state s0 = true := by
    rw [good_state_iff]
    constructor
    · intro c hc
      simp [hs0] at hc
    · intro hne
      simp [hs0] at hne
  have hs1 := good_state_set_default_parameters s0 kwargs h0
  dsimp only
  cases hsd : set_default_parameters s0 kwargs with
  | mk r1 st1 =>
    rw [hsd] at hs1
    cases r1 with
    | error e => exact hs1
    | ok a =>
      dsimp only
      cases pl with
      | none => exact hs1
      | some p =>
        dsimp only
        have hs2 := good_state_add_port st1 p true false [] hs1
        cases hadd : add_port st1 p true false [] with
        | mk r2 st2 =>
          rw [hadd] at hs2
          cases r2 <;> exact hs2

theorem invariant_of_good_state {s : SerialLibrary} (h : good_state s = true) :
    invariant_holds s = true := by
  rw [good_state_iff] at h
  rw [invariant_holds_iff]
  exact h.1

theorem invariant_add_port (s : SerialLibrary) (loc : String) (opn mc : Bool)
    (kwargs : List (String × PyVal)) (h : invariant_holds s = true) :
    invariant_holds (add_port s loc opn mc kwargs).2 = true := by
  rw [invariant_holds_iff] at h
  unfold add_port
  by_cases hg1 : loc = "" ∨ loc = "_"
  · rw [if_pos hg1, invariant_holds_iff]
    exact h
  rw [if_neg hg1]
  by_cases hg2 : (aget loc s.ports).isSome = true
  · rw [if_pos hg2, invariant_holds_iff]
    exact h
  rw [if_neg hg2]
  cases hkw : build_serial_kw kwargs s.defaults with
  | none =>
    rw [invariant_holds_iff]
    exact h
  | some serial_kw =>
    rw [invariant_holds_iff]
    intro c hc
    simp only at hc ⊢
    by_cases hcur : s.current_port_locator = none ∨ mc = true
    · rw [if_pos hcur] at hc
      cases hc
      simp [aget_aset_self]
    · rw [if_neg hcur] at hc
      by_cases hcl : c = loc
      · subst hcl
        simp [aget_aset_self]
      · rw [aget_aset_ne _ _ hcl]
        exact h c hc

theorem invariant_delete_port (s : SerialLibrary) (pl : Option String)
    (h : invariant_holds s = true) :
    invariant_holds (delete_port s pl).2 = true := by
  rw [invariant_holds_iff] at h
  unfold delete_port
  cases hres : pl.orElse (fun _ => s.current_port_locator) with
  | none =>
    dsimp only
    rw [invariant_holds_iff]
    exact h
  | some loc =>
    dsimp only
    cases hget : aget loc s.ports with
    | none =>
      dsimp only
      rw [invariant_holds_iff]
      exact h
    | some p =>
      dsimp only
      rw [invariant_holds_iff]
      intro c hc
      simp only at hc ⊢
      by_cases hcur : s.current_port_locator = some loc
      · rw [if_pos hcur] at hc
        exact aget_isSome_of_mem_akeys (List.mem_of_mem_getLast? (by simpa using hc))
      · rw [if_neg hcur] at hc
        have hcl : c ≠ loc := by
          rintro rfl
          exact hcur hc
        rw [aget_aerase_ne _ hcl]
        exact h c hc

theorem invariant_switch_port (s : SerialLibrary) (loc : String)
    (h : invariant_holds s = true) :
    invariant_holds (switch_port s loc).2 = true := by
  rw [invariant_holds_iff] at h
  unfold switch_port
  by_cases hg : (aget loc s.ports).isSome = true
  · rw [if_pos hg, invariant_holds_iff]
    intro c hc
    simp only at hc ⊢
    cases hc
    exact hg
  · rw [if_neg hg, invariant_holds_iff]
    exact h

theorem invariant_delete_all_ports (s : SerialLibrary) :
    invariant_holds (delete_all_ports s) = true := by
  rw [invariant_holds_iff]
  intro c hc
  simp [delete_all_ports] at hc

theorem invariant_set_default_parameters (s : SerialLibrary)
    (params : List (String × PyVal)) (h : invariant_holds s = true) :
    invariant_holds (set_default_parameters s params).2 = true := by
  unfold set_default_parameters
  rw [invariant_holds_iff] at h
  split <;> (rw [invariant_holds_iff]; exact h)

theorem invariant_reset_default_parameters (s : SerialLibrary)
    (h : invariant_holds s = true) :
    invariant_holds (reset_default_parameters s) = true := by
  rw [invariant_holds_iff] at h ⊢
  exact h

end SerialLibrary

/-! ## Claims -/
/-- C2: every registry operation — construction, `add_port`, `delete_port`,
`delete_all_ports`, `switch_port`, `set_default_parameters`,
`reset_default_parameters` — preserves the invariant that the current
locator, when non-null, is a key present in the port mapping. -/
theorem C2_invariant_preserved (s : SerialLibrary) (h : invariant_holds s = true)
    (pl dloc : Option String) (enc loc sw : String) (opn mc : Bool)
    (kwargs kwargs2 params : List (String × PyVal)) :
    invariant_holds (SerialLibrary.mkSerialLibrary pl enc kwargs).2 = true ∧
    invariant_holds (SerialLibrary.add_port s loc opn mc kwargs2).2 = true ∧
    invariant_holds (SerialLibrary.delete_port s dloc).2 = true ∧
    invariant_holds (SerialLibrary.delete_all_ports s) = true ∧
    invariant_holds (SerialLibrary.switch_port s sw).2 = true ∧
    invariant_holds (SerialLibrary.set_default_parameters s params).2 = true ∧
    invariant_holds (SerialLibrary.reset_default_parameters s) = true :=
  ⟨SerialLibrary.invariant_of_good_state (SerialLibrary.good_state_mkSerialLibrary pl enc kwargs),
   SerialLibrary.invariant_add_port s loc opn mc kwargs2 h,
   SerialLibrary.invariant_delete_port s dloc h,
   SerialLibrary.invariant_delete_all_ports s,
   SerialLibrary.invariant_switch_port s sw h,
   SerialLibrary.invariant_set_default_parameters s params h,
   SerialLibrary.invariant_reset_default_parameters s h⟩

/-- Witness for C2 at a concrete two-port registry and concrete operation
arguments. -/
theorem C2_invariant_preserved_witness :
    invariant_holds (SerialLibrary.mkSerialLibrary (some "loop://") "ascii" []).2 = true ∧
    invariant_holds (SerialLibrary.add_port sample_state "p3" true false []).2 = true ∧
    invariant_holds (SerialLibrary.delete_port sample_state (some "p1")).2 = true ∧
    invariant_holds (SerialLibrary.delete_all_ports sample_state) = true ∧
    invariant_holds (SerialLibrary.switch_port sample_state "p2").2 = true ∧
    invariant_holds (SerialLibrary.set_default_parameters sample_state [("baudrate", .vint 115200)]).2 = true ∧
    invariant_holds (SerialLibrary.reset_default_parameters sample_state) = true :=
  C2_invariant_preserved sample_state (by decide) (some "loop://") (some "p1")
    "ascii" "p3" "p2" true false [] [] [("baudrate", .vint 115200)]

/-- C1: deleting the current port (whether addressed explicitly or by
default) succeeds, removes its entry, and promotes the most recently
inserted remaining entry — the last key of the insertion-ordered remaining
mapping — to current, or sets current to null when no entry remains. -/
theorem C1_delete_current_promotes (s : SerialLibrary) (loc : String)
    (dloc : Option String) (hd : dloc = none ∨ dloc = some loc)
    (hcur : s.current_port_locator = some loc)
    (hmem : (aget loc s.ports).isSome = true) :
    isErr (SerialLibrary.delete_port s dloc).1 = false ∧
    (SerialLibrary.delete_port s dloc).2.ports = aerase loc s.ports ∧
    (SerialLibrary.delete_port s dloc).2.current_port_locator =
      (akeys (aerase loc s.ports)).getLast? := by
  obtain ⟨p, hp⟩ := Option.isSome_iff_exists.mp hmem
  have hres : (dloc.orElse fun _ => s.current_port_locator) = some loc := by
    rcases hd with rfl | rfl <;> simp [Option.orElse, hcur]
  unfold SerialLibrary.delete_port
  rw [hres]
  dsimp only
  rw [hp]
  dsimp only
  rw [if_pos hcur]
  exact ⟨rfl, rfl, rfl⟩

/-- Witness for C1: deleting the current port `p1` of the two-port sample
registry promotes `p2` (the most recently inserted remaining port). -/
theorem C1_delete_current_promotes_witness :
    isErr (SerialLibrary.delete_port sample_state (some "p1")).1 = false ∧
    (SerialLibrary.delete_port sample_state (some "p1")).2.ports =
      aerase "p1" sample_state.ports ∧
    (SerialLibrary.delete_port sample_state (some "p1")).2.current_port_locator =
      (akeys (aerase "p1" sample_state.ports)).getLast? :=
  C1_delete_current_promotes sample_state "p1" (some "p1") (Or.inr rfl) rfl (by decide)

/-- C3: `add_port` with a locator that is already present, empty, or the
reserved token `'_'` fails and leaves the whole registry state — mapping,
current locator and default parameter set — unchanged. -/
theorem C3_add_invalid_fails_unchanged (s : SerialLibrary) (loc : String)
    (opn mc : Bool) (kwargs : List (String × PyVal))
    (h : (aget loc s.ports).isSome = true ∨ loc = "" ∨ loc = "_") :
    isErr (SerialLibrary.add_port s loc opn mc kwargs).1 = true ∧
    (SerialLibrary.add_port s loc opn mc kwargs).2 = s := by
  unfold SerialLibrary.add_port
  by_cases hg1 : loc = "" ∨ loc = "_"
  · rw [if_pos hg1]
    exact ⟨rfl, rfl⟩
  · have hdup : (aget loc s.ports).isSome = true := by tauto
    rw [if_neg hg1, if_pos hdup]
    exact ⟨rfl, rfl⟩

/-- Witness for C3: adding the already-present locator `p1` to the sample
registry fails without mutating anything. -/
theorem C3_add_invalid_fails_unchanged_witness :
    isErr (SerialLibrary.add_port sample_state "p1" true false []).1 = true ∧
    (SerialLibrary.add_port sample_state "p1" true false []).2 = sample_state :=
  C3_add_invalid_fails_unchanged sample_state "p1" true false [] (Or.inl (by decide))

/-- C4: on a registry in a reachable state, a successful `add_port` on an
empty registry makes the added locator current, and a successful `add_port`
on a non-empty registry with `make_current` false leaves the current locator
unchanged. -/
theorem C4_add_current (s : SerialLibrary) (loc : String) (opn mc : Bool)
    (kwargs : List (String × PyVal)) (hg : good_state s = true) :
    (s.ports = [] → isErr (SerialLibrary.add_port s loc opn mc kwargs).1 = false →
      (SerialLibrary.add_port s loc opn mc kwargs).2.current_port_locator = some loc) ∧
    (s.ports ≠ [] → isErr (SerialLibrary.add_port s loc opn false kwargs).1 = false →
      (SerialLibrary.add_port s loc opn false kwargs).2.current_port_locator =
        s.current_port_locator) := by
  rw [good_state_iff] at hg
  obtain ⟨h1, h2⟩ := hg
  constructor
  · intro hempty hok
    have hcur : s.current_port_locator = none := by
      cases hc : s.current_port_locator with
      | none => rfl
      | some c =>
        have := h1 c hc
        rw [hempty] at this
        simp [aget] at this
    unfold SerialLibrary.add_port at hok ⊢
    by_cases hg1 : loc = "" ∨ loc = "_"
    · rw [if_pos hg1] at hok
      simp [isErr] at hok
    rw [if_neg hg1] at hok ⊢
    by_cases hg2 : (aget loc s.ports).isSome = true
    · rw [if_pos hg2] at hok
      simp [isErr] at hok
    rw [if_neg hg2] at hok ⊢
    cases hkw : SerialLibrary.build_serial_kw kwargs s.defaults with
    | none =>
      rw [hkw] at hok
      simp [isErr] at hok
    | some serial_kw =>
      dsimp only
      rw [if_pos (Or.inl hcur)]
  · intro hne hok
    have hcur : s.current_port_locator.isSome = true := h2 hne
    obtain ⟨c, hc⟩ := Option.isSome_iff_exists.mp hcur
    unfold SerialLibrary.add_port at hok ⊢
    by_cases hg1 : loc = "" ∨ loc = "_"
    · rw [if_pos hg1] at hok
      simp [isErr] at hok
    rw [if_neg hg1] at hok ⊢
    by_cases hg2 : (aget loc s.ports).isSome = true
    · rw [if_pos hg2] at hok
      simp [isErr] at hok
    rw [if_neg hg2] at hok ⊢
    cases hkw : SerialLibrary.build_serial_kw kwargs s.defaults with
    | none =>
      rw [hkw] at hok
    | some serial_kw =>
      dsimp only
      rw [if_neg (by simp [hc])]

/-- Witness for C4: the first port added to an empty registry becomes
current, and adding a third port to the sample registry without
`make_current` keeps `p1` current. -/
theorem C4_add_current_witness :
    (SerialLibrary.add_port empty_state "p1" true false []).2.current_port_locator = some "p1" ∧
    (SerialLibrary.add_port sample_state "p3" true false []).2.current_port_locator =
      sample_state.current_port_locator :=
  ⟨(C4_add_current empty_state "p1" true false [] (by decide)).1 rfl (by decide),
   (C4_add_current sample_state "p3" true false [] (by decide)).2 (by decide) (by decide)⟩

/-- C10: the current-port assertion never fails on the reserved token `'_'`,
and on any other locator it fails exactly when that locator differs from the
current locator. -/
theorem C10_current_port_should_be (s : SerialLibrary) (loc : String) :
    SerialLibrary.current_port_should_be s "_" = .ok () ∧
    (loc ≠ "_" →
      (isErr (SerialLibrary.current_port_should_be s loc) = true ↔
        s.current_port_locator ≠ some loc)) := by
  constructor
  · simp [SerialLibrary.current_port_should_be]
  · intro hne
    unfold SerialLibrary.current_port_should_be
    by_cases hc : s.current_port_locator = some loc
    · simp [hne, hc, isErr]
    · simp [hne, hc, isErr]

/-- Witness for C10: on an empty registry (current unset) the assertion
passes for `'_'` and fails for `p1`. -/
theorem C10_current_port_should_be_witness :
    SerialLibrary.current_port_should_be empty_state "_" = .ok () ∧
    (isErr (SerialLibrary.current_port_should_be empty_state "p1") = true ↔
      empty_state.current_port_locator ≠ some "p1") :=
  ⟨(C10_current_port_should_be empty_state "p1").1,
   (C10_current_port_should_be empty_state "p1").2 (by decide)⟩

/-- C7: resolving a locator that is not a key of the registry fails when
`fail` is set and returns no handle otherwise; resolving with the locator
omitted or equal to the reserved current token behaves the same way when the
current locator is unset, and otherwise returns the current port's handle. -/
theorem C7_resolve_port (s : SerialLibrary) (loc : String) (pl : Option String) :
    (loc ≠ "_" → aget loc s.ports = none →
      SerialLibrary.get_port s (some loc) true = .error "No such port." ∧
      SerialLibrary.get_port s (some loc) false = .ok none) ∧
    ((pl = none ∨ pl = some "_") → s.current_port_locator = none →
      SerialLibrary.get_port s pl true = .error "No such port." ∧
      SerialLibrary.get_port s pl false = .ok none) ∧
    (∀ c, (pl = none ∨ pl = some "_") → s.current_port_locator = some c →
      invariant_holds s = true →
      ∀ fl, SerialLibrary.get_port s pl fl = .ok (aget c s.ports) ∧
        (aget c s.ports).isSome = true) := by
  refine ⟨?_, ?_, ?_⟩
  · intro hne hmiss
    have hrk : SerialLibrary.resolve_key s (some loc) = some loc := by
      simp [SerialLibrary.resolve_key, hne]
    constructor <;> simp [SerialLibrary.get_port, hrk, hmiss]
  · intro hpl hcur
    have hrk : SerialLibrary.resolve_key s pl = none := by
      rcases hpl with rfl | rfl <;> simp [SerialLibrary.resolve_key, hcur]
    constructor <;> simp [SerialLibrary.get_port, hrk]
  · intro c hpl hcur hinv fl
    have hrk : SerialLibrary.resolve_key s pl = some c := by
      rcases hpl with rfl | rfl <;> simp [SerialLibrary.resolve_key, hcur]
    rw [invariant_holds_iff] at hinv
    have hsome := hinv c hcur
    obtain ⟨p, hp⟩ := Option.isSome_iff_exists.mp hsome
    refine ⟨?_, hsome⟩
    simp [SerialLibrary.get_port, hrk, hp]

/-- Witness for C7: a never-added locator fails (or yields no handle), the
current token fails on an empty registry, and the current token resolves to
`p1`'s handle on the sample registry. -/
theorem C7_resolve_port_witness :
    (SerialLibrary.get_port sample_state (some "nope") true = .error "No such port." ∧
     SerialLibrary.get_port sample_state (some "nope") false = .ok none) ∧
    (SerialLibrary.get_port empty_state none true = .error "No such port." ∧
     SerialLibrary.get_port empty_state none false = .ok none) ∧
    (SerialLibrary.get_port sample_state (some "_") true = .ok (aget "p1" sample_state.ports) ∧
     (aget "p1" sample_state.ports).isSome = true) :=
  ⟨(C7_resolve_port sample_state "nope" none).1 (by decide) (by decide),
   (C7_resolve_port empty_state "x" none).2.1 (Or.inl rfl) rfl,
   (C7_resolve_port sample_state "x" (some "_")).2.2 "p1" (Or.inr rfl) rfl (by decide) true⟩

/-- C5 counterexample: the initial default parameter set does not keep the
transport's built-in value for the inter-byte timeout — a parameter that is
neither the read timeout nor the write timeout — because the source
constructs `DEFAULT_SETTINGS` with `inter_byte_timeout=0.0` while the
transport's built-in default is `None`. -/
theorem C5_counterexample :
    aget "inter_byte_timeout" (SerialLibrary.mkSerialLibrary none "hexlify" []).2.defaults =
      some (.vfloat 0) ∧
    aget "inter_byte_timeout" SerialBase_default_settings = some .vnone ∧
    aget "inter_byte_timeout" DEFAULT_SETTINGS ≠
      aget "inter_byte_timeout" SerialBase_default_settings ∧
    "inter_byte_timeout" ≠ "timeout" ∧ "inter_byte_timeout" ≠ "write_timeout" :=
  ⟨rfl, rfl, by decide, by decide, by decide⟩

/-- C5 (amended): the initial default parameter set of a freshly constructed
instance equals the transport's built-in default settings for every
parameter except the read timeout and write timeout (overridden to 1.0 each)
and the inter-byte timeout (overridden to 0.0). -/
theorem C5_amended_initial_defaults :
    (SerialLibrary.mkSerialLibrary none "hexlify" []).2.defaults = DEFAULT_SETTINGS ∧
    aget "timeout" DEFAULT_SETTINGS = some (.vfloat 1) ∧
    aget "write_timeout" DEFAULT_SETTINGS = some (.vfloat 1) ∧
    aget "inter_byte_timeout" DEFAULT_SETTINGS = some (.vfloat 0) ∧
    (∀ k, k ≠ "timeout" → k ≠ "write_timeout" → k ≠ "inter_byte_timeout" →
      aget k DEFAULT_SETTINGS = aget k SerialBase_default_settings) := by
  refine ⟨rfl, rfl, rfl, rfl, ?_⟩
  intro k h1 h2 h3
  simp only [DEFAULT_SETTINGS, SerialBase_default_settings, aget]
  split_ifs <;> simp_all

/-- Witness for C5 (amended) at the parameter `baudrate`. -/
theorem C5_amended_initial_defaults_witness :
    aget "baudrate" DEFAULT_SETTINGS = aget "baudrate" SerialBase_default_settings :=
  C5_amended_initial_defaults.2.2.2.2 "baudrate" (by decide) (by decide) (by decide)

theorem aget_none_of_not_mem_akeys {α : Type} {k : String} {l : List (String × α)}
    (h : k ∉ akeys l) : aget k l = none := by
  induction l with
  | nil => rfl
  | cons hd tl ih =>
    obtain ⟨k0, v0⟩ := hd
    simp only [akeys, List.map_cons, List.mem_cons, not_or] at h
    simp only [aget, if_neg h.1]
    exact ih (by simpa [akeys] using h.2)

theorem mem_of_aget {α : Type} {k : String} {v : α} {l : List (String × α)}
    (h : aget k l = some v) : (k, v) ∈ l := by
  induction l with
  | nil => simp [aget] at h
  | cons hd tl ih =>
    obtain ⟨k0, v0⟩ := hd
    by_cases hk : k = k0
    · subst hk
      simp [aget] at h
      simp [h]
    · simp only [aget, if_neg hk] at h
      exact List.mem_cons_of_mem _ (ih h)

/-- Characterization of a successful `update_defaults` run: when every
supplied value for a key present in the defaults coerces successfully, the
run succeeds and the resulting dictionary maps each key present in both
`params` and the defaults to the coerced supplied value, leaving every other
key unchanged. -/
theorem update_defaults_ok (params : List (String × PyVal)) :
    ∀ d : List (String × PyVal), (akeys params).Nodup →
    (∀ k v, aget k params = some v → ∀ dv, aget k d = some dv →
      (coerce (ptype dv) v).isSome = true) →
    (SerialLibrary.update_defaults d params).1 = .ok () ∧
    ∀ k, aget k (SerialLibrary.update_defaults d params).2 =
      match aget k params, aget k d with
      | some v, some dv => coerce (ptype dv) v
      | _, _ => aget k d := by
  induction params with
  | nil =>
    intro d hnd hsucc
    refine ⟨rfl, fun k => ?_⟩
    simp [SerialLibrary.update_defaults, aget]
  | cons hd rest ih =>
    intro d hnd hsucc
    obtain ⟨k0, v0⟩ := hd
    have hnd2 := hnd
    rw [show akeys ((k0, v0) :: rest) = k0 :: akeys rest from rfl, List.nodup_cons] at hnd2
    have hk0rest : aget k0 rest = none := aget_none_of_not_mem_akeys hnd2.1
    have hnd' : (akeys rest).Nodup := hnd2.2
    cases hd0 : aget k0 d with
    | none =>
      have hsucc' : ∀ k v, aget k rest = some v → ∀ dv, aget k d = some dv →
          (coerce (ptype dv) v).isSome = true := by
        intro k v hkv dv hdv
        refine hsucc k v ?_ dv hdv
        by_cases hk : k = k0
        · subst hk
          rw [hk0rest] at hkv
          cases hkv
        · simpa [aget, hk] using hkv
      unfold SerialLibrary.update_defaults
      rw [hd0]
      dsimp only
      obtain ⟨ih1, ih2⟩ := ih d hnd' hsucc'
      refine ⟨ih1, fun k => ?_⟩
      rw [ih2 k]
      by_cases hk : k = k0
      · subst hk
        rw [hk0rest]
        simp [aget, hd0]
      · simp [aget, hk]
    | some dv0 =>
      have hco := hsucc k0 v0 (by simp [aget]) dv0 hd0
      obtain ⟨w, hw⟩ := Option.isSome_iff_exists.mp hco
      unfold SerialLibrary.update_defaults
      rw [hd0]
      dsimp only
      rw [hw]
      dsimp only
      have hsucc' : ∀ k v, aget k rest = some v → ∀ dv, aget k (aset k0 w d) = some dv →
          (coerce (ptype dv) v).isSome = true := by
        intro k v hkv dv hdv
        by_cases hk : k = k0
        · subst hk
          rw [hk0rest] at hkv
          cases hkv
        · rw [aget_aset_ne _ _ hk] at hdv
          exact hsucc k v (by simpa [aget, hk] using hkv) dv hdv
      obtain ⟨ih1, ih2⟩ := ih (aset k0 w d) hnd' hsucc'
      refine ⟨ih1, fun k => ?_⟩
      rw [ih2 k]
      by_cases hk : k = k0
      · subst hk
        rw [hk0rest]
        simp [aget, hd0, aget_aset_self, hw]
      · rw [aget_aset_ne _ _ hk]
        simp [aget, hk]

/-- C8: when every supplied value for a recognized key coerces successfully
(expressed as a decidable scan of the supplied mapping), and the supplied
mapping has no duplicate keys, `set_default_parameters` returns the default
parameter set as it was before the call, leaves the ports, current locator
and encoding untouched, updates each key present in both the supplied
mapping and the default set to the supplied value coerced to the type
already stored for that key, and silently ignores every other supplied
key. -/
theorem C8_set_default_parameters (s : SerialLibrary) (params : List (String × PyVal))
    (hnd : (akeys params).Nodup)
    (hsucc : params.all (fun p =>
      match aget p.1 s.defaults with
      | none => true
      | some dv => (coerce (ptype dv) p.2).isSome) = true) :
    (SerialLibrary.set_default_parameters s params).1 = .ok s.defaults ∧
    (SerialLibrary.set_default_parameters s params).2.ports = s.ports ∧
    (SerialLibrary.set_default_parameters s params).2.current_port_locator =
      s.current_port_locator ∧
    (SerialLibrary.set_default_parameters s params).2.encoding = s.encoding ∧
    (∀ k, aget k params = none →
      aget k (SerialLibrary.set_default_parameters s params).2.defaults =
        aget k s.defaults) ∧
    (∀ k v, aget k params = some v → aget k s.defaults = none →
      aget k (SerialLibrary.set_default_parameters s params).2.defaults = none) ∧
    (∀ k v dv, aget k params = some v → aget k s.defaults = some dv →
      aget k (SerialLibrary.set_default_parameters s params).2.defaults =
        coerce (ptype dv) v) := by
  have hsucc' : ∀ k v, aget k params = some v → ∀ dv, aget k s.defaults = some dv →
      (coerce (ptype dv) v).isSome = true := by
    intro k v hkv dv hdv
    have hm := mem_of_aget hkv
    have := List.all_eq_true.mp hsucc (k, v) hm
    rw [hdv] at this
    exact this
  obtain ⟨h1, h2⟩ := update_defaults_ok params s.defaults hnd hsucc'
  unfold SerialLibrary.set_default_parameters
  cases hu : SerialLibrary.update_defaults s.defaults params with
  | mk r d' =>
    rw [hu] at h1 h2
    dsimp only at h1 h2
    subst h1
    refine ⟨rfl, rfl, rfl, rfl, ?_, ?_, ?_⟩
    · intro k hk
      have := h2 k
      rw [hk] at this
      simpa using this
    · intro k v hk hd
      have := h2 k
      rw [hk, hd] at this
      simpa [hd] using this
    · intro k v dv hk hd
      have := h2 k
      rw [hk, hd] at this
      simpa using this

/-- Witness for C8: updating the sample registry's defaults with a
recognized key (`baudrate`) and an unrecognized key (`frobnicate`). -/
theorem C8_set_default_parameters_witness :
    (SerialLibrary.set_default_parameters sample_state
      [("baudrate", .vint 115200), ("frobnicate", .vint 5)]).1 = .ok sample_state.defaults ∧
    aget "parity" (SerialLibrary.set_default_parameters sample_state
      [("baudrate", .vint 115200), ("frobnicate", .vint 5)]).2.defaults =
      aget "parity" sample_state.defaults ∧
    aget "baudrate" (SerialLibrary.set_default_parameters sample_state
      [("baudrate", .vint 115200), ("frobnicate", .vint 5)]).2.defaults =
      coerce (ptype (.vint 9600)) (.vint 115200) :=
  let h := C8_set_default_parameters sample_state
    [("baudrate", .vint 115200), ("frobnicate", .vint 5)] (by decide) (by decide)
  ⟨h.1, h.2.2.2.2.1 "parity" (by decide),
   h.2.2.2.2.2.2 "baudrate" (.vint 115200) (.vint 9600) (by decide) (by decide)⟩

/-- C6: for a port present in the registry and a recognized parameter name,
`set_port_parameter` returns the value the parameter had before the call and
stores the supplied value coerced to the type stored for that name in the
default parameter set, so that a subsequent `get_port_parameter` on the same
port returns the just-set coerced value; both operations fail on an
unrecognized parameter name. -/
theorem C6_port_parameter (s : SerialLibrary) (loc name : String)
    (value v' dv prev : PyVal) (port : PortHandle) (hloc : loc ≠ "_")
    (hport : aget loc s.ports = some port)
    (hdef : aget name s.defaults = some dv)
    (hattr : aget name port.params = some prev)
    (hco : coerce (ptype dv) value = some v') :
    (SerialLibrary.set_port_parameter s name value (some loc)).1 = .ok prev ∧
    SerialLibrary.get_port_parameter
      (SerialLibrary.set_port_parameter s name value (some loc)).2 name (some loc) =
      .ok v' ∧
    (∀ bad, aget bad s.defaults = none →
      isErr (SerialLibrary.set_port_parameter s bad value (some loc)).1 = true ∧
      isErr (SerialLibrary.get_port_parameter s bad (some loc)) = true) := by
  have hrk : SerialLibrary.resolve_key s (some loc) = some loc := by
    simp [SerialLibrary.resolve_key, hloc]
  have hset : SerialLibrary.set_port_parameter s name value (some loc) =
      (.ok prev, set_param_state s loc name v' port) := by
    simp [SerialLibrary.set_port_parameter, set_param_state, hdef, hrk, hport, hattr, hco]
  refine ⟨by rw [hset], ?_, ?_⟩
  · rw [hset]
    have hrk2 : SerialLibrary.resolve_key (set_param_state s loc name v' port)
        (some loc) = some loc := by
      simp [SerialLibrary.resolve_key, hloc]
    have hdef2 : aget name (set_param_state s loc name v' port).defaults = some dv := by
      simpa [set_param_state] using hdef
    have hget2 : aget loc (set_param_state s loc name v' port).ports = some { port with params := aset name v' port.params } := by
      simp [set_param_state, aget_aset_self]
    simp [SerialLibrary.get_port_parameter, SerialLibrary.get_port, hdef2, hrk2, hget2, aget_aset_self]
  · intro bad hbad
    constructor
    · simp [SerialLibrary.set_port_parameter, hbad, isErr]
    · simp [SerialLibrary.get_port_parameter, hbad, isErr]

/-- Witness for C6: setting `baudrate` on port `p1` of the sample registry
returns the previous value 9600 and a subsequent get returns 115200; both
operations fail on the unrecognized name `bogus`. -/
theorem C6_port_parameter_witness :
    (SerialLibrary.set_port_parameter sample_state "baudrate" (.vint 115200)
      (some "p1")).1 = .ok (.vint 9600) ∧
    SerialLibrary.get_port_parameter
      (SerialLibrary.set_port_parameter sample_state "baudrate" (.vint 115200)
        (some "p1")).2 "baudrate" (some "p1") = .ok (.vint 115200) ∧
    (isErr (SerialLibrary.set_port_parameter sample_state "bogus" (.vint 115200)
      (some "p1")).1 = true ∧
     isErr (SerialLibrary.get_port_parameter sample_state "bogus" (some "p1")) = true) :=
  let h := C6_port_parameter sample_state "p1" "baudrate" (.vint 115200)
    (.vint 115200) (.vint 9600) (.vint 9600) port_w (by decide) (by decide)
    (by decide) (by decide) (by decide)
  ⟨h.1, h.2.1, h.2.2 "bogus" (by decide)⟩

theorem hexDigitUpper_not_ws {n : Nat} (h : n < 16) :
    (hexDigitUpper n).isWhitespace = false := by
  interval_cases n <;> decide

theorem hex_digit_val_hexDigitUpper {n : Nat} (h : n < 16) :
    hex_digit_val (hexDigitUpper n) = some n := by
  interval_cases n <;> decide

theorem split_ws_step_ws (c : Char) (hc : c.isWhitespace = true)
    (t : List Char) (ts : List (List Char)) :
    split_ws_step c (t, ts) = ([], if t.isEmpty then ts else t :: ts) := by
  simp [split_ws_step, hc]

theorem split_ws_step_not_ws (c : Char) (hc : c.isWhitespace = false)
    (t : List Char) (ts : List (List Char)) :
    split_ws_step c (t, ts) = (c :: t, ts) := by
  simp [split_ws_step, hc]

theorem hex_decode_chars_cons (b : Nat) (r : List Nat) :
    hex_decode_chars (b :: r) = byte_hex_chars b ++ hex_decode_chars r := rfl

theorem foldr_split_hex : ∀ bs : List Nat, (∀ b ∈ bs, b < 256) →
    (hex_decode_chars bs).foldr split_ws_step ([], []) =
      match bs with
      | [] => ([], [])
      | b :: r => ([hexDigitUpper (b / 16), hexDigitUpper (b % 16)], hex_toks r)
  | [], _ => rfl
  | b :: r, hb => by
    have hb0 : b < 256 := hb b (by simp)
    have hbr : ∀ x ∈ r, x < 256 := fun x hx => hb x (List.mem_cons_of_mem _ hx)
    have ih := foldr_split_hex r hbr
    have hd1 : b / 16 < 16 := by omega
    have hd2 : b % 16 < 16 := by omega
    rw [hex_decode_chars_cons, List.foldr_append, ih]
    cases r with
    | nil =>
      simp only [byte_hex_chars, List.foldr_cons, List.foldr_nil]
      rw [split_ws_step_ws ' ' (by decide),
        split_ws_step_not_ws _ (hexDigitUpper_not_ws hd2),
        split_ws_step_not_ws _ (hexDigitUpper_not_ws hd1)]
      simp [hex_toks]
    | cons b' r' =>
      simp only [byte_hex_chars, List.foldr_cons, List.foldr_nil]
      rw [split_ws_step_ws ' ' (by decide),
        split_ws_step_not_ws _ (hexDigitUpper_not_ws hd2),
        split_ws_step_not_ws _ (hexDigitUpper_not_ws hd1)]
      simp [hex_toks]

theorem split_ws_hex_decode (bs : List Nat) (hb : ∀ b ∈ bs, b < 256) :
    split_ws (hex_decode_chars bs) = hex_toks bs := by
  unfold split_ws
  rw [foldr_split_hex bs hb]
  cases bs with
  | nil => rfl
  | cons b r => simp [finish_split, hex_toks]

theorem foldr_split_ws_all : ∀ w : List Char, (∀ c ∈ w, c.isWhitespace = true) →
    w.foldr split_ws_step ([], []) = ([], [])
  | [], _ => rfl
  | c :: w, h => by
    rw [List.foldr_cons, foldr_split_ws_all w (fun x hx => h x (List.mem_cons_of_mem _ hx)),
      split_ws_step_ws c (h c (by simp))]
    rfl

theorem split_ws_append_ws (cs w : List Char) (hw : ∀ c ∈ w, c.isWhitespace = true) :
    split_ws (cs ++ w) = split_ws cs := by
  unfold split_ws
  rw [List.foldr_append, foldr_split_ws_all w hw]

theorem exists_ws_suffix (cs : List Char) :
    ∃ w, cs = rstrip cs ++ w ∧ ∀ c ∈ w, c.isWhitespace = true := by
  refine ⟨(cs.reverse.takeWhile Char.isWhitespace).reverse, ?_, ?_⟩
  · unfold rstrip
    rw [← List.reverse_append, List.takeWhile_append_dropWhile, List.reverse_reverse]
  · intro c hc
    rw [List.mem_reverse] at hc
    exact List.mem_takeWhile_imp hc

theorem split_ws_rstrip (cs : List Char) : split_ws (rstrip cs) = split_ws cs := by
  obtain ⟨w, hw1, hw2⟩ := exists_ws_suffix cs
  conv_rhs => rw [hw1]
  rw [split_ws_append_ws _ w hw2]

theorem int_base16_tok {b : Nat} (hb : b < 256) :
    int_base16 [hexDigitUpper (b / 16), hexDigitUpper (b % 16)] = some b := by
  have hd1 : b / 16 < 16 := by omega
  have hd2 : b % 16 < 16 := by omega
  simp [int_base16, int_base16_aux, hex_digit_val_hexDigitUpper hd1,
    hex_digit_val_hexDigitUpper hd2]
  omega

theorem map_int_base16_toks : ∀ bs : List Nat, (∀ b ∈ bs, b < 256) →
    map_int_base16 (hex_toks bs) = some bs
  | [], _ => rfl
  | b :: r, hb => by
    have hb0 : b < 256 := hb b (by simp)
    have ih := map_int_base16_toks r (fun x hx => hb x (List.mem_cons_of_mem _ hx))
    simp only [hex_toks, List.map_cons] at ih ⊢
    unfold map_int_base16
    rw [int_base16_tok hb0, ih]

theorem to_bytes_all_lt (bs : List Nat) (hb : ∀ b ∈ bs, b < 256) :
    to_bytes bs = some bs := by
  unfold to_bytes
  rw [if_pos]
  exact List.all_eq_true.mpr (fun x hx => decide_eq_true (hb x hx))

theorem hex_encode_canonical (bs : List Nat) (hb : ∀ b ∈ bs, b < 256) :
    hex_encode_chars (hexlify_decode_plus bs) = some bs := by
  unfold hex_encode_chars hexlify_decode_plus
  rw [split_ws_rstrip, split_ws_hex_decode bs hb, map_int_base16_toks bs hb]
  exact to_bytes_all_lt bs hb

theorem ascii_encode_all (text : List Char) (h : ∀ c ∈ text, c.toNat < 128) :
    ascii_encode text = some (text.map Char.toNat) := by
  induction text with
  | nil => rfl
  | cons c rest ih =>
    have hc : c.toNat < 128 := h c (by simp)
    have ih2 := ih (fun x hx => h x (List.mem_cons_of_mem _ hx))
    simp [ascii_encode, hc, ih2]

theorem ascii_decode_map (text : List Char) (h : ∀ c ∈ text, c.toNat < 128) :
    ascii_decode_replace (text.map Char.toNat) = text := by
  induction text with
  | nil => rfl
  | cons c rest ih =>
    have hc : c.toNat < 128 := h c (by simp)
    have ih2 := ih (fun x hx => h x (List.mem_cons_of_mem _ hx))
    simp only [ascii_decode_replace, List.map_cons] at ih2 ⊢
    rw [if_pos hc, Char.ofNat_toNat, ih2]

/-- C9 counterexample: the text `ab` is valid under the default `hexlify`
encoding (encoding it succeeds, producing the single byte 171), but encoding
it and decoding the bytes back yields `AB`, not the original text. -/
theorem C9_counterexample :
    encode_bytes "hexlify" ['a', 'b'] = some [171] ∧
    (encode_bytes "hexlify" ['a', 'b']).bind (decode_bytes "hexlify") =
      some ['A', 'B'] ∧
    (['A', 'B'] : List Char) ≠ ['a', 'b'] :=
  ⟨rfl, rfl, by decide⟩

/-- C9 (amended): encoding then decoding under `ascii` reproduces any text
whose characters are all ASCII; encoding then decoding under the default
`hexlify` encoding reproduces any text in the decoder's canonical form
(upper-case two-digit hex pairs separated by single spaces, i.e. the
rendering of some byte string); and the end-to-end scenario
`Add Port loop://` → `Write Data AB encoding=ascii` →
`Read All Data encoding=ascii` returns `AB`. -/
theorem C9_amended_roundtrip :
    (∀ text : List Char, (∀ c ∈ text, c.toNat < 128) →
      (encode_bytes "ascii" text).bind (decode_bytes "ascii") = some text) ∧
    (∀ bs : List Nat, (∀ b ∈ bs, b < 256) →
      (encode_bytes "hexlify" (hexlify_decode_plus bs)).bind
        (decode_bytes "hexlify") = some (hexlify_decode_plus bs)) ∧
    loop_scenario = .ok ['A', 'B'] := by
  refine ⟨?_, ?_, rfl⟩
  · intro text h
    have henc := ascii_encode_all text h
    have hdec := ascii_decode_map text h
    simp [encode_bytes, decode_bytes, henc, hdec]
  · intro bs hb
    have henc := hex_encode_canonical bs hb
    simp [encode_bytes, decode_bytes, henc]

/-- Witness for C9 (amended): ASCII round trip at `A`, hexlify round trip at
the canonical rendering of the byte 171. -/
theorem C9_amended_roundtrip_witness :
    (encode_bytes "ascii" ['A']).bind (decode_bytes "ascii") = some ['A'] ∧
    (encode_bytes "hexlify" (hexlify_decode_plus [171])).bind
      (decode_bytes "hexlify") = some (hexlify_decode_plus [171]) :=
  ⟨C9_amended_roundtrip.1 ['A'] (by decide),
   C9_amended_roundtrip.2.1 [171] (by decide)⟩

end SerialSpec
